import Mathlib

/-!
Verification of `chainspacemeasurements/instances.py` (EC2 fleet
orchestration for a Chainspace test network).

The Python module manages a fleet of EC2 instances: it launches tagged
instances, selects them back by tag filters, opens one SSH session per
instance (kept in the dict `self.ssh_connections`), and fans remote
operations out over all selected instances with
`multiprocessing.dummy.Pool(ChainspaceNetwork.threads).map`.

Shallow embedding conventions:
* An EC2 instance handle is `Ec2Instance` (id, tags, state, public IP).
  boto3 resource handles compare by identifier, so the session dict is
  keyed by the instance id string.
* A Python dict is an association list with unique keys; `dictSet` is
  dict assignment (replace the binding if the key is present, append
  otherwise) and `dictLookup` is subscripting (`none` models `KeyError`).
* A paramiko `SSHClient` is an opaque numeric handle allocated from
  `NetState.nextClient`; `client.close()` records the handle in
  `NetState.closed`. Remote command output (the stdout/stderr line
  streams of `exec_command`) is an external collaborator and is supplied
  by an `Env`.
* Effects are explicit state passing over `NetState`; a raised Python
  exception is `Except.error`. `sys.stdout` logging appends to
  `NetState.log`.
* `Pool.map` runs the operation once per argument tuple; all submitted
  tasks run (a failing task does not cancel its siblings), and `map`
  re-raises the failure of the earliest failing task to its caller.
  `poolMap` is the sequential denotation of that contract; the
  bounded-concurrency scheduling of the pool itself is modelled
  separately by the `PoolStep` transition system.
-/

namespace Chainspace

/-! ## Python dict on string keys, as an association list -/

/-- `m[k]` lookup in a Python dict; `none` models a raised `KeyError`. -/
def dictLookup {β : Type} : List (String × β) → String → Option β
  | [], _ => none
  | (k, v) :: m, key => if k = key then some v else dictLookup m key

/-- `m[k] = v` dict assignment: overwrite the binding of the key in
place when present (a Python dict holds at most one binding per key), or
append a new binding when the key is absent. -/
def dictSet {β : Type} : List (String × β) → String → β → List (String × β)
  | [], k, v => [(k, v)]
  | (k0, v0) :: m, k, v =>
    if k0 = k then (k, v) :: m else (k0, v0) :: dictSet m k v

/-! ## EC2 inventory model -/

/-- One `{'Key': ..., 'Value': ...}` EC2 tag. -/
structure Tag where
  key : String
  value : String
deriving DecidableEq, Repr

/-- One element of a boto3 `Filters=[...]` list, restricted to the two
filter names this module uses: `tag:<key>` and `instance-state-name`. -/
inductive Filter where
  | tag (key : String) (values : List String)
  | instanceStateName (values : List String)
deriving DecidableEq, Repr

/-- An EC2 instance as seen through boto3: identifier, tags, state name
and public IP address. -/
structure Ec2Instance where
  id : String
  tags : List Tag
  state : String
  public_ip_address : String
deriving DecidableEq, Repr

/-- EC2 describe-instances filter semantics for the two filter kinds in
use: a `tag:<key>` filter matches instances carrying a tag with that key
and a value among the filter values; an `instance-state-name` filter
matches on the instance state. -/
def matchesFilter (inst : Ec2Instance) : Filter → Bool
  | Filter.tag k vs => inst.tags.any fun t => t.key == k && vs.contains t.value
  | Filter.instanceStateName vs => vs.contains inst.state

/-- A boto3 `instances.filter(Filters=fs)` query matches an instance iff
every filter in the list matches it. -/
def matchesFilters (inst : Ec2Instance) (fs : List Filter) : Bool :=
  fs.all (matchesFilter inst)

/-! ## ChainspaceNetwork: configuration and mutable state -/

/-- The immutable configuration of a `ChainspaceNetwork` object:
`self.network_id` (stringified) and `self.aws_region`
(default `us-east-2`). -/
structure ChainspaceNetwork where
  network_id : String
  aws_region : String
deriving DecidableEq, Repr

/-- Class attribute `ChainspaceNetwork.threads = 100`: the size of the
worker pool used by every fleet fan-out. -/
def ChainspaceNetwork.threads : Nat := 100

/-- Class attribute `ChainspaceNetwork.aws_api_threads = 5`. -/
def ChainspaceNetwork.aws_api_threads : Nat := 5

/-- The mutable state of a `ChainspaceNetwork` object plus elements of
the outside world it acts on: `self.ssh_connections` (dict from instance
id to SSH client handle), a fresh-handle counter for
`paramiko.SSHClient()` allocation, the set of client handles on which
`.close()` has been called, and the stdout log. -/
structure NetState where
  ssh_connections : List (String × Nat)
  nextClient : Nat
  closed : List Nat
  log : List String
deriving DecidableEq, Repr

/-- A raised Python exception. The dict subscript on a missing key
raises `KeyError(key)`. -/
inductive Err where
  | keyError (key : String)
deriving DecidableEq, Repr

/-- External collaborators: the remote output a command produces on an
instance. `stdout id cmd` is the line stream read by
`iter(stdout.readline, '')`; `stderr id cmd` the one read by
`stderr.readlines()`. -/
structure Env where
  stdout : String → String → List String
  stderr : String → String → List String

/-- `_safe_print` / `self._log`: append one line to stdout. -/
def _log (s : NetState) (message : String) : NetState :=
  { s with log := s.log ++ [message] }

/-- The `'[instance {}] {}'.format(inst.id, message)` prefix applied
by `_log_instance`. -/
def instMsg (inst : Ec2Instance) (message : String) : String :=
  "[instance " ++ inst.id ++ "] " ++ message

/-- `self._log_instance(instance, message)`. -/
def _log_instance (s : NetState) (inst : Ec2Instance) (message : String) :
    NetState :=
  _log s (instMsg inst message)

/-! ## Per-instance operations -/

/-- `_single_ssh_connect`: log, create a fresh `paramiko.SSHClient`,
connect it to the instance public IP (an external effect that is modelled
as succeeding), store it in `self.ssh_connections[instance]`, log. -/
def _single_ssh_connect (inst : Ec2Instance) (s : NetState) :
    Except Err Unit × NetState :=
  let s := _log_instance s inst "Initiating SSH connection..."
  let client := s.nextClient
  let s := { s with nextClient := s.nextClient + 1 }
  let s := { s with
    ssh_connections := dictSet s.ssh_connections inst.id client }
  let s := _log_instance s inst "Initiated SSH connection."
  (Except.ok (), s)

/-- `_single_ssh_exec`: log the command, look the client up in
`self.ssh_connections[instance]` (raising `KeyError` when absent), run
`exec_command`, log each stdout line then each stderr line (rstripped;
the `try ... except Exception: pass` around each log call cannot fire in
the model because logging never throws), log completion. -/
def _single_ssh_exec (env : Env) (inst : Ec2Instance) (command : String)
    (s : NetState) : Except Err Unit × NetState :=
  let s := _log_instance s inst ("Executing command: " ++ command)
  match dictLookup s.ssh_connections inst.id with
  | none => (Except.error (Err.keyError inst.id), s)
  | some _client =>
    let s := (env.stdout inst.id command).foldl
      (fun st m => _log_instance st inst m.trimRight) s
    let s := (env.stderr inst.id command).foldl
      (fun st m => _log_instance st inst m.trimRight) s
    let s := _log_instance s inst ("Executed command: " ++ command)
    (Except.ok (), s)

/-- `_single_ssh_close`: log, look the client up in
`self.ssh_connections[instance]` (raising `KeyError` when absent), call
`client.close()`, log. The dict entry is left in place. -/
def _single_ssh_close (inst : Ec2Instance) (s : NetState) :
    Except Err Unit × NetState :=
  let s := _log_instance s inst "Closing SSH connection..."
  match dictLookup s.ssh_connections inst.id with
  | none => (Except.error (Err.keyError inst.id), s)
  | some client =>
    let s := { s with closed := s.closed ++ [client] }
    let s := _log_instance s inst "Closed SSH connection."
    (Except.ok (), s)

/-- Shared tail of every fleet method: when `pool.map` re-raises, the
exception propagates and the trailing completion log is skipped;
otherwise the completion message is logged. -/
def finishFleet (r : Except Err Unit × NetState) (message : String) :
    Except Err Unit × NetState :=
  match r with
  | (Except.ok _, s) => (Except.ok (), _log s message)
  | (Except.error e, s) => (Except.error e, s)

/-- The `for command in commands: self._single_ssh_exec(instance, command)`
loop of the installers: run each command in turn; a raised exception
aborts the remaining commands and propagates. -/
def _run_commands (env : Env) (inst : Ec2Instance) :
    List String → NetState → Except Err Unit × NetState
  | [], s => (Except.ok (), s)
  | c :: cs, s =>
    match _single_ssh_exec env inst c s with
    | (Except.ok _, s1) => _run_commands env inst cs s1
    | (Except.error e, s1) => (Except.error e, s1)

/-- The command tuple of `_single_install_deps`. -/
def deps_commands : List String :=
  [ "sudo apt update",
    "sudo apt install -t jessie-backports openjdk-8-jdk -y",
    "sudo apt install git python-pip maven screen psmisc -y" ]

/-- The command tuple of `_single_install_core`. -/
def core_commands : List String :=
  [ "git clone https://github.com/musalbas/chainspace",
    "sudo pip install chainspace/chainspacecontract",
    "sudo update-alternatives --set java /usr/lib/jvm/java-8-openjdk-amd64/jre/bin/java",
    "cd chainspace/chainspacecore; export JAVA_HOME=/usr/lib/jvm/java-8-openjdk-amd64; mvn package assembly:single" ]

/-- `_single_install_deps`: log, run the three dependency-install
commands over SSH, log. -/
def _single_install_deps (env : Env) (inst : Ec2Instance) (s : NetState) :
    Except Err Unit × NetState :=
  let s := _log_instance s inst "Installing Chainspace dependencies..."
  finishFleet (_run_commands env inst deps_commands s)
    (instMsg inst "Installed Chainspace dependencies.")

/-- `_single_install_core`: log, run the four core-install commands over
SSH, log. -/
def _single_install_core (env : Env) (inst : Ec2Instance) (s : NetState) :
    Except Err Unit × NetState :=
  let s := _log_instance s inst "Installing Chainspace core..."
  finishFleet (_run_commands env inst core_commands s)
    (instMsg inst "Installed Chainspace core.")

/-! ## Inventory queries -/

/-- The `Filters` argument of `_get_running_instances`. -/
def _get_running_instances_filters (net : ChainspaceNetwork) : List Filter :=
  [ Filter.tag "type" ["chainspace"],
    Filter.tag "network_id" [net.network_id],
    Filter.instanceStateName ["running"] ]

/-- The `Filters` argument of `_get_stopped_instances`. -/
def _get_stopped_instances_filters (net : ChainspaceNetwork) : List Filter :=
  [ Filter.tag "type" ["chainspace"],
    Filter.tag "network_id" [net.network_id],
    Filter.instanceStateName ["stopped"] ]

/-- The `Filters` argument of `_get_all_instances`. -/
def _get_all_instances_filters (net : ChainspaceNetwork) : List Filter :=
  [ Filter.tag "type" ["chainspace"],
    Filter.tag "network_id" [net.network_id] ]

/-- `self._get_running_instances()`, with the boto3 `self.ec2.instances`
collection abstracted as a query function `ec2` from a filter list to the
matching instances. -/
def _get_running_instances (net : ChainspaceNetwork)
    (ec2 : List Filter → List Ec2Instance) : List Ec2Instance :=
  ec2 (_get_running_instances_filters net)

/-- `self._get_stopped_instances()`. -/
def _get_stopped_instances (net : ChainspaceNetwork)
    (ec2 : List Filter → List Ec2Instance) : List Ec2Instance :=
  ec2 (_get_stopped_instances_filters net)

/-- `self._get_all_instances()`. -/
def _get_all_instances (net : ChainspaceNetwork)
    (ec2 : List Filter → List Ec2Instance) : List Ec2Instance :=
  ec2 (_get_all_instances_filters net)

/-! ## The fan-out dispatcher -/

/-- Sequential denotation of
`pool = Pool(ChainspaceNetwork.threads); pool.map(_multi_args_wrapper, args);
pool.close(); pool.join()` as used by every fleet method:
`_multi_args_wrapper` applies the per-instance operation to each argument
tuple exactly once; every submitted task runs (a failing task does not
cancel its siblings); `map` re-raises the failure of the earliest failing
task to its caller, in which case the `pool.close()`/`pool.join()` lines
after it are skipped (they have no observable effect here). The
bounded-concurrency scheduling of the pool itself is modelled by
`PoolStep` below. -/
def poolMap {α σ : Type} (f : α → σ → Except Err Unit × σ) :
    List α → σ → Except Err Unit × σ
  | [], s => (Except.ok (), s)
  | x :: xs, s =>
    match f x s with
    | (Except.ok _, s1) => poolMap f xs s1
    | (Except.error e, s1) => (Except.error e, (poolMap f xs s1).2)

/-! ## Fleet operations -/

/-- `install_deps`: log, fan `_single_install_deps` out over the running
instances, log (the trailing log being skipped when `pool.map`
re-raises). -/
def install_deps (env : Env) (net : ChainspaceNetwork)
    (ec2 : List Filter → List Ec2Instance) (s : NetState) :
    Except Err Unit × NetState :=
  let s := _log s "Installing Chainspace dependencies on all nodes..."
  finishFleet (poolMap (_single_install_deps env) (_get_running_instances net ec2) s)
    "Installed Chainspace dependencies on all nodes."

/-- `install_core`: log, fan `_single_install_core` out over the running
instances, log. -/
def install_core (env : Env) (net : ChainspaceNetwork)
    (ec2 : List Filter → List Ec2Instance) (s : NetState) :
    Except Err Unit × NetState :=
  let s := _log s "Installing Chainspace core on all nodes..."
  finishFleet (poolMap (_single_install_core env) (_get_running_instances net ec2) s)
    "Installed Chainspace core on all nodes."

/-- `ssh_connect`: log, fan `_single_ssh_connect` out over the running
instances, log. -/
def ssh_connect (net : ChainspaceNetwork)
    (ec2 : List Filter → List Ec2Instance) (s : NetState) :
    Except Err Unit × NetState :=
  let s := _log s "Initiating SSH connection on all nodes..."
  finishFleet (poolMap _single_ssh_connect (_get_running_instances net ec2) s)
    "Initiated SSH connection on all nodes."

/-- `ssh_exec`: log, fan `_single_ssh_exec` with the given command out
over the running instances, log. -/
def ssh_exec (env : Env) (net : ChainspaceNetwork)
    (ec2 : List Filter → List Ec2Instance) (command : String) (s : NetState) :
    Except Err Unit × NetState :=
  let s := _log s ("Executing command on all nodes: " ++ command)
  finishFleet (poolMap (fun i => _single_ssh_exec env i command)
      (_get_running_instances net ec2) s)
    ("Executed command on all nodes: " ++ command)

/-- `ssh_close`: log, fan `_single_ssh_close` out over the running
instances, log (the source logs a trailing `...` here). -/
def ssh_close (net : ChainspaceNetwork)
    (ec2 : List Filter → List Ec2Instance) (s : NetState) :
    Except Err Unit × NetState :=
  let s := _log s "Closing SSH connection on all nodes..."
  finishFleet (poolMap _single_ssh_close (_get_running_instances net ec2) s)
    "Closed SSH connection on all nodes..."

/-- `get_ips`: the public IP addresses of the running instances. -/
def get_ips (net : ChainspaceNetwork)
    (ec2 : List Filter → List Ec2Instance) : List String :=
  (_get_running_instances net ec2).map (fun i => i.public_ip_address)

/-- `terminate`: log, call `.terminate()` on the unfiltered instance
collection, log. The boto3 action is external; the returned list is the
collection the action is applied to. -/
def terminate (net : ChainspaceNetwork)
    (ec2 : List Filter → List Ec2Instance) (s : NetState) :
    NetState × List Ec2Instance :=
  let s := _log s "Terminating all nodes..."
  let selected := _get_all_instances net ec2
  let s := _log s "All nodes terminated."
  (s, selected)

/-- `start`: log, call `.start()` on the stopped-instances collection,
log. -/
def start (net : ChainspaceNetwork)
    (ec2 : List Filter → List Ec2Instance) (s : NetState) :
    NetState × List Ec2Instance :=
  let s := _log s "Starting all nodes..."
  let selected := _get_stopped_instances net ec2
  let s := _log s "Started all nodes."
  (s, selected)

/-- `stop`: log, call `.stop()` on the running-instances collection,
log. -/
def stop (net : ChainspaceNetwork)
    (ec2 : List Filter → List Ec2Instance) (s : NetState) :
    NetState × List Ec2Instance :=
  let s := _log s "Stopping all nodes..."
  let selected := _get_running_instances net ec2
  let s := _log s "Stopped all nodes."
  (s, selected)

/-! ## Launch -/

/-- The module-level `_jessie_mapping` dict from AWS region to the
Debian 8.7 AMI id. -/
def _jessie_mapping : List (String × String) :=
  [ ("ap-northeast-1", "ami-dbc0bcbc"),
    ("ap-northeast-2", "ami-6d8b5a03"),
    ("ap-south-1", "ami-9a83f5f5"),
    ("ap-southeast-1", "ami-0842e96b"),
    ("ap-southeast-2", "ami-881317eb"),
    ("ca-central-1", "ami-a1fe43c5"),
    ("eu-central-1", "ami-5900cc36"),
    ("eu-west-1", "ami-402f1a33"),
    ("eu-west-2", "ami-87848ee3"),
    ("sa-east-1", "ami-b256ccde"),
    ("us-east-1", "ami-b14ba7a7"),
    ("us-east-2", "ami-b2795cd7"),
    ("us-west-1", "ami-94bdeef4"),
    ("us-west-2", "ami-221ea342") ]

/-- The `create_instances` request built by `launch`, keeping the fields
the claims are about plus the remaining scalar arguments. -/
structure LaunchRequest where
  imageId : String
  instanceType : String
  minCount : Nat
  maxCount : Nat
  keyName : String
  securityGroups : List String
  tags : List Tag
deriving DecidableEq, Repr

/-- `launch(count, key_name)`: log, call `self.ec2.create_instances`
with `MinCount = MaxCount = count`, the region AMI
(`_jessie_mapping[self.aws_region]`, raising `KeyError` for an unmapped
region), and the three instance tags, then log. The boto3 call is
external; the request it receives is returned. -/
def launch (net : ChainspaceNetwork) (count : Nat) (key_name : String)
    (s : NetState) : Except Err (NetState × LaunchRequest) :=
  let s := _log s ("Launching " ++ toString count ++ " instances...")
  match dictLookup _jessie_mapping net.aws_region with
  | none => Except.error (Err.keyError net.aws_region)
  | some ami =>
    let req : LaunchRequest :=
      { imageId := ami
        instanceType := "t2.micro"
        minCount := count
        maxCount := count
        keyName := key_name
        securityGroups := ["chainspace"]
        tags :=
          [ { key := "type", value := "chainspace" },
            { key := "network_id", value := net.network_id },
            { key := "Name",
              value := "Chainspace node (network: " ++ net.network_id ++ ")" } ] }
    let s := _log s ("Launched " ++ toString count ++ " instances.")
    Except.ok (s, req)

/-! ## Scheduling model of the worker pool

`multiprocessing.dummy.Pool(n)` owns `n` worker threads; each worker is
either idle or running exactly one submitted task, and a pending task
starts only when some worker is idle. `PoolStep` is the resulting
interleaving semantics; the fleet methods instantiate
`n = ChainspaceNetwork.threads`. -/

/-- A pool configuration: tasks not yet started, one slot per worker
thread (`none` = idle), and finished tasks. -/
structure PoolState (τ : Type) where
  pending : List τ
  workers : List (Option τ)
  done : List τ

/-- One scheduling step of the worker pool: an idle worker picks up the
next pending task, or a worker finishes its task and becomes idle. -/
inductive PoolStep {τ : Type} : PoolState τ → PoolState τ → Prop
  | start (st : PoolState τ) (w : Nat) (t : τ) (rest : List τ)
      (hp : st.pending = t :: rest) (hw : st.workers.get? w = some none) :
      PoolStep st ⟨rest, st.workers.set w (some t), st.done⟩
  | finish (st : PoolState τ) (w : Nat) (t : τ)
      (hw : st.workers.get? w = some (some t)) :
      PoolStep st ⟨st.pending, st.workers.set w none, st.done ++ [t]⟩

/-- `Pool(n)` applied to a task list: all tasks pending, `n` idle
workers, nothing done. -/
def poolInit {τ : Type} (tasks : List τ) (n : Nat) : PoolState τ :=
  ⟨tasks, List.replicate n none, []⟩

/-- The number of tasks currently running, i.e. busy workers. -/
def runningCount {τ : Type} (st : PoolState τ) : Nat :=
  (st.workers.filter Option.isSome).length

/-! ## Specification-side helpers -/

/-- The log lines `_single_ssh_exec env inst command` appends when the
instance has a session: the command header, the rstripped stdout lines,
the rstripped stderr lines, and the command footer, all with the
instance prefix. -/
def execBlock (env : Env) (inst : Ec2Instance) (command : String) :
    List String :=
  [instMsg inst ("Executing command: " ++ command)]
    ++ (env.stdout inst.id command).map (fun m => instMsg inst m.trimRight)
    ++ (env.stderr inst.id command).map (fun m => instMsg inst m.trimRight)
    ++ [instMsg inst ("Executed command: " ++ command)]

/-- The instance ids that hold a tracked session. -/
def sessionKeys (s : NetState) : List String :=
  s.ssh_connections.map Prod.fst

/-- At most one tracked session per node: the keys of the session dict
are pairwise distinct. -/
def sessionInvariant (s : NetState) : Prop :=
  (sessionKeys s).Nodup

/-- An instance has a tag with the given key and value. -/
def hasTag (inst : Ec2Instance) (k v : String) : Prop :=
  ∃ t ∈ inst.tags, t.key = k ∧ t.value = v

/-! ## Concrete objects used by witnesses and counterexamples -/

/-- A concrete network object, `ChainspaceNetwork(0)`. -/
def net0 : ChainspaceNetwork := { network_id := "0", aws_region := "us-east-2" }

/-- A concrete running instance of network `0`. -/
def inst0 : Ec2Instance :=
  { id := "i-0"
    tags := [ { key := "type", value := "chainspace" },
              { key := "network_id", value := "0" },
              { key := "Name", value := "Chainspace node (network: 0)" } ]
    state := "running"
    public_ip_address := "198.51.100.7" }

/-- An environment in which every remote command produces no output. -/
def env0 : Env := { stdout := fun _ _ => [], stderr := fun _ _ => [] }

/-- The state of a freshly constructed network object: empty session
dict, no clients allocated or closed, empty log. -/
def state0 : NetState :=
  { ssh_connections := [], nextClient := 0, closed := [], log := [] }

/-- A state in which `inst0` has a tracked session (client `0`). -/
def state1 : NetState :=
  { ssh_connections := [("i-0", 0)], nextClient := 1, closed := [], log := [] }

/-- An inventory on which every query returns just `inst0`. -/
def ec2one : List Filter → List Ec2Instance := fun _ => [inst0]

/-- An inventory on which every query returns no instances. -/
def ec2none : List Filter → List Ec2Instance := fun _ => []

/-- The request `launch net0 3 "mykey"` hands to `create_instances`. -/
def req0 : LaunchRequest :=
  { imageId := "ami-b2795cd7"
    instanceType := "t2.micro"
    minCount := 3
    maxCount := 3
    keyName := "mykey"
    securityGroups := ["chainspace"]
    tags := [ { key := "type", value := "chainspace" },
              { key := "network_id", value := "0" },
              { key := "Name", value := "Chainspace node (network: 0)" } ] }

/-- The state after `launch net0 3 "mykey"` from `state0`. -/
def state0Launched : NetState :=
  { ssh_connections := []
    nextClient := 0
    closed := []
    log := ["Launching 3 instances...", "Launched 3 instances."] }

/-! ## Dictionary lemmas -/

theorem dictLookup_dictSet_self {β : Type} (m : List (String × β)) (k : String)
    (v : β) : dictLookup (dictSet m k v) k = some v := by
  induction m with
  | nil => simp [dictSet, dictLookup]
  | cons p m ih =>
    obtain ⟨k0, v0⟩ := p
    by_cases h : k0 = k
    · simp [dictSet, dictLookup, h]
    · simp [dictSet, dictLookup, h, ih]

theorem dictLookup_dictSet_other {β : Type} (m : List (String × β))
    (k k' : String) (v : β) (h : k' ≠ k) :
    dictLookup (dictSet m k v) k' = dictLookup m k' := by
  have hkk : ¬k = k' := fun h0 => h h0.symm
  induction m with
  | nil => simp [dictSet, dictLookup, hkk]
  | cons p m ih =>
    obtain ⟨k0, v0⟩ := p
    by_cases h0 : k0 = k
    · subst h0
      simp [dictSet, dictLookup, hkk]
    · simp [dictSet, dictLookup, h0, ih]

theorem mem_keys_dictSet {β : Type} (m : List (String × β)) (k a : String)
    (v : β) :
    a ∈ (dictSet m k v).map Prod.fst ↔ a ∈ m.map Prod.fst ∨ a = k := by
  induction m with
  | nil => simp [dictSet]
  | cons p m ih =>
    obtain ⟨k0, v0⟩ := p
    by_cases h : k0 = k
    · subst h
      simp [dictSet]
      tauto
    · simp [dictSet, h, ih]
      tauto

theorem nodup_keys_dictSet {β : Type} (m : List (String × β)) (k : String)
    (v : β) (h : (m.map Prod.fst).Nodup) :
    ((dictSet m k v).map Prod.fst).Nodup := by
  induction m with
  | nil => simp [dictSet]
  | cons p m ih =>
    obtain ⟨k0, v0⟩ := p
    simp only [List.map_cons, List.nodup_cons] at h
    by_cases h0 : k0 = k
    · subst h0
      simpa [dictSet, List.nodup_cons] using h
    · have hset : dictSet ((k0, v0) :: m) k v = (k0, v0) :: dictSet m k v := by
        simp [dictSet, h0]
      rw [hset, List.map_cons, List.nodup_cons]
      refine ⟨?_, ih h.2⟩
      rw [mem_keys_dictSet]
      rintro (hm | hm)
      · exact h.1 hm
      · exact h0 hm

/-! ## Logging and single-operation normal forms -/

theorem foldl_log_trim (inst : Ec2Instance) (msgs : List String) :
    ∀ s : NetState,
    msgs.foldl (fun st m => _log_instance st inst m.trimRight) s
      = { s with log := s.log ++ msgs.map (fun m => instMsg inst m.trimRight) } := by
  induction msgs with
  | nil => intro s; simp
  | cons m msgs ih =>
    intro s
    rw [List.foldl_cons, ih]
    simp [_log_instance, _log, List.append_assoc]

theorem single_ssh_exec_ok (env : Env) (inst : Ec2Instance) (command : String)
    (s : NetState) (h : (dictLookup s.ssh_connections inst.id).isSome) :
    _single_ssh_exec env inst command s
      = (Except.ok (), { s with log := s.log ++ execBlock env inst command }) := by
  obtain ⟨c, hc⟩ := Option.isSome_iff_exists.mp h
  simp only [_single_ssh_exec]
  have hc2 : dictLookup
      (_log_instance s inst ("Executing command: " ++ command)).ssh_connections
      inst.id = some c := hc
  rw [hc2]
  simp only [foldl_log_trim]
  simp [_log_instance, _log, execBlock, List.append_assoc]

theorem single_ssh_exec_err (env : Env) (inst : Ec2Instance) (command : String)
    (s : NetState) (h : dictLookup s.ssh_connections inst.id = none) :
    _single_ssh_exec env inst command s
      = (Except.error (Err.keyError inst.id),
         { s with log := s.log ++ [instMsg inst ("Executing command: " ++ command)] }) := by
  simp only [_single_ssh_exec, _log_instance, _log]
  rw [show dictLookup s.ssh_connections inst.id = none from h]

theorem single_ssh_connect_eq (inst : Ec2Instance) (s : NetState) :
    _single_ssh_connect inst s
      = (Except.ok (),
         { s with
            ssh_connections := dictSet s.ssh_connections inst.id s.nextClient
            nextClient := s.nextClient + 1
            log := s.log ++ [instMsg inst "Initiating SSH connection...",
                             instMsg inst "Initiated SSH connection."] }) := by
  simp [_single_ssh_connect, _log_instance, _log]

theorem single_ssh_close_ok (inst : Ec2Instance) (s : NetState) (c : Nat)
    (h : dictLookup s.ssh_connections inst.id = some c) :
    _single_ssh_close inst s
      = (Except.ok (),
         { s with
            closed := s.closed ++ [c]
            log := s.log ++ [instMsg inst "Closing SSH connection...",
                             instMsg inst "Closed SSH connection."] }) := by
  simp only [_single_ssh_close, _log_instance, _log]
  rw [show dictLookup s.ssh_connections inst.id = some c from h]
  simp [List.append_assoc]

theorem single_ssh_close_err (inst : Ec2Instance) (s : NetState)
    (h : dictLookup s.ssh_connections inst.id = none) :
    _single_ssh_close inst s
      = (Except.error (Err.keyError inst.id),
         { s with log := s.log ++ [instMsg inst "Closing SSH connection..."] }) := by
  simp only [_single_ssh_close, _log_instance, _log]
  rw [show dictLookup s.ssh_connections inst.id = none from h]

/-- The session dict is never modified by a remote exec. -/
theorem exec_connections_eq (env : Env) (inst : Ec2Instance) (command : String)
    (s : NetState) :
    ((_single_ssh_exec env inst command s).2).ssh_connections
      = s.ssh_connections := by
  cases hc : dictLookup s.ssh_connections inst.id with
  | none => rw [single_ssh_exec_err env inst command s hc]
  | some c =>
    rw [single_ssh_exec_ok env inst command s (by simp [hc])]

/-- The session dict is never modified by a close (the entry is left in
place). -/
theorem close_connections_eq (inst : Ec2Instance) (s : NetState) :
    ((_single_ssh_close inst s).2).ssh_connections = s.ssh_connections := by
  cases hc : dictLookup s.ssh_connections inst.id with
  | none => rw [single_ssh_close_err inst s hc]
  | some c => rw [single_ssh_close_ok inst s c hc]

/-! ## Dispatcher lemmas -/

theorem poolMap_nil {α σ : Type} (f : α → σ → Except Err Unit × σ) (s : σ) :
    poolMap f [] s = (Except.ok (), s) := rfl

theorem poolMap_cons_ok {α σ : Type} (f : α → σ → Except Err Unit × σ)
    (x : α) (xs : List α) (s s1 : σ) (h : f x s = (Except.ok (), s1)) :
    poolMap f (x :: xs) s = poolMap f xs s1 := by
  simp [poolMap, h]

theorem poolMap_cons_err {α σ : Type} (f : α → σ → Except Err Unit × σ)
    (x : α) (xs : List α) (s s1 : σ) (e : Err)
    (h : f x s = (Except.error e, s1)) :
    poolMap f (x :: xs) s = (Except.error e, (poolMap f xs s1).2) := by
  simp [poolMap, h]

/-- A state predicate preserved by every invocation is preserved by the
whole fan-out, whether or not invocations fail. -/
theorem poolMap_preserve {α σ : Type} (f : α → σ → Except Err Unit × σ)
    (P : σ → Prop) (hf : ∀ x s, P s → P (f x s).2) :
    ∀ (xs : List α) (s : σ), P s → P (poolMap f xs s).2 := by
  intro xs
  induction xs with
  | nil => intro s h; simpa [poolMap] using h
  | cons x xs ih =>
    intro s h
    have hx := hf x s h
    cases hfx : f x s with
    | mk r1 s1 =>
      rw [hfx] at hx
      cases r1 with
      | ok u => cases u; rw [poolMap_cons_ok f x xs s s1 hfx]; exact ih s1 hx
      | error e =>
        rw [poolMap_cons_err f x xs s s1 e hfx]
        exact ih s1 hx

/-- Fan-out of `_single_ssh_exec` when every target instance holds a
session: every invocation succeeds and the log grows by exactly one
`execBlock` per instance, in order. -/
theorem poolMap_exec_ok (env : Env) (command : String) :
    ∀ (insts : List Ec2Instance) (s : NetState),
    (∀ i ∈ insts, (dictLookup s.ssh_connections i.id).isSome) →
    poolMap (fun i => _single_ssh_exec env i command) insts s
      = (Except.ok (),
         { s with log := s.log
             ++ (insts.map fun i => execBlock env i command).flatten }) := by
  intro insts
  induction insts with
  | nil => intro s _; simp [poolMap]
  | cons j insts ih =>
    intro s h
    have hj := h j (List.mem_cons_self j insts)
    rw [poolMap_cons_ok (fun i => _single_ssh_exec env i command) j insts s _
      (single_ssh_exec_ok env j command s hj)]
    rw [ih { s with log := s.log ++ execBlock env j command }
      (fun i hi => h i (List.mem_cons_of_mem j hi))]
    simp [List.append_assoc]

/-- `ssh_exec` when every running instance holds a session: it returns
normally and appends the fleet header, one `execBlock` per instance, and
the fleet footer to the log, leaving the rest of the state unchanged. -/
theorem ssh_exec_ok_eq (env : Env) (net : ChainspaceNetwork)
    (ec2 : List Filter → List Ec2Instance) (command : String) (s : NetState)
    (h : ∀ i ∈ _get_running_instances net ec2,
        (dictLookup s.ssh_connections i.id).isSome) :
    ssh_exec env net ec2 command s
      = (Except.ok (),
         { s with log := s.log
             ++ ("Executing command on all nodes: " ++ command)
               :: (((_get_running_instances net ec2).map
                     fun i => execBlock env i command).flatten
                   ++ ["Executed command on all nodes: " ++ command]) }) := by
  simp only [ssh_exec]
  have h2 : ∀ i ∈ _get_running_instances net ec2,
      (dictLookup (_log s ("Executing command on all nodes: " ++ command)).ssh_connections
        i.id).isSome := h
  rw [poolMap_exec_ok env command _ _ h2]
  simp [finishFleet, _log, List.append_assoc]

/-- A line already logged stays logged across a remote exec. -/
theorem exec_log_mono (env : Env) (inst : Ec2Instance) (command : String)
    (s : NetState) (m : String) (h : m ∈ s.log) :
    m ∈ ((_single_ssh_exec env inst command s).2).log := by
  cases hc : dictLookup s.ssh_connections inst.id with
  | none =>
    rw [single_ssh_exec_err env inst command s hc]
    exact List.mem_append_left _ h
  | some c =>
    rw [single_ssh_exec_ok env inst command s (by simp [hc])]
    exact List.mem_append_left _ h

/-- A remote exec always logs its command header, session or not. -/
theorem exec_header_mem (env : Env) (inst : Ec2Instance) (command : String)
    (s : NetState) :
    instMsg inst ("Executing command: " ++ command)
      ∈ ((_single_ssh_exec env inst command s).2).log := by
  cases hc : dictLookup s.ssh_connections inst.id with
  | none =>
    rw [single_ssh_exec_err env inst command s hc]
    exact List.mem_append_right _ (by simp)
  | some c =>
    rw [single_ssh_exec_ok env inst command s (by simp [hc])]
    refine List.mem_append_right _ ?_
    simp [execBlock]

/-- A line already logged stays logged across a whole exec fan-out. -/
theorem poolMap_exec_log_mono (env : Env) (command : String)
    (insts : List Ec2Instance) (s : NetState) (m : String) (h : m ∈ s.log) :
    m ∈ ((poolMap (fun i => _single_ssh_exec env i command) insts s).2).log :=
  poolMap_preserve _ (fun st => m ∈ st.log)
    (fun x st hx => exec_log_mono env x command st m hx) insts s h

/-- Every target of an exec fan-out runs: its command header ends up in
the log, even when other invocations (or its own) fail. -/
theorem poolMap_exec_header_mem (env : Env) (command : String) :
    ∀ (insts : List Ec2Instance) (s : NetState) (i : Ec2Instance), i ∈ insts →
    instMsg i ("Executing command: " ++ command)
      ∈ ((poolMap (fun j => _single_ssh_exec env j command) insts s).2).log := by
  intro insts
  induction insts with
  | nil => intro s i hi; cases hi
  | cons j insts ih =>
    intro s i hi
    cases List.mem_cons.mp hi with
    | inl heq =>
      subst heq
      cases hfj : _single_ssh_exec env i command s with
      | mk r1 s1 =>
        have hdr := exec_header_mem env i command s
        rw [hfj] at hdr
        cases r1 with
        | ok u =>
          cases u
          rw [poolMap_cons_ok (fun x => _single_ssh_exec env x command)
            i insts s s1 hfj]
          exact poolMap_exec_log_mono env command insts s1 _ hdr
        | error e =>
          rw [poolMap_cons_err (fun x => _single_ssh_exec env x command)
            i insts s s1 e hfj]
          exact poolMap_exec_log_mono env command insts s1 _ hdr
    | inr hmem =>
      cases hfj : _single_ssh_exec env j command s with
      | mk r1 s1 =>
        cases r1 with
        | ok u =>
          cases u
          rw [poolMap_cons_ok (fun x => _single_ssh_exec env x command)
            j insts s s1 hfj]
          exact ih s1 i hmem
        | error e =>
          rw [poolMap_cons_err (fun x => _single_ssh_exec env x command)
            j insts s s1 e hfj]
          exact ih s1 i hmem

/-- The exec fan-out returns normally iff every target instance holds a
session; otherwise `pool.map` re-raises. -/
theorem poolMap_exec_ok_iff (env : Env) (command : String) :
    ∀ (insts : List Ec2Instance) (s : NetState),
    ((poolMap (fun j => _single_ssh_exec env j command) insts s).1
        = Except.ok ()
      ↔ ∀ i ∈ insts, (dictLookup s.ssh_connections i.id).isSome) := by
  intro insts
  induction insts with
  | nil => intro s; simp [poolMap]
  | cons j insts ih =>
    intro s
    by_cases hj : (dictLookup s.ssh_connections j.id).isSome
    · rw [poolMap_cons_ok (fun x => _single_ssh_exec env x command) j insts s _
        (single_ssh_exec_ok env j command s hj)]
      rw [ih { s with log := s.log ++ execBlock env j command }]
      constructor
      · intro hall i hi
        cases List.mem_cons.mp hi with
        | inl heq => subst heq; exact hj
        | inr hmem => exact hall i hmem
      · intro hall i hi
        exact hall i (List.mem_cons_of_mem j hi)
    · have hnone : dictLookup s.ssh_connections j.id = none :=
        Option.not_isSome_iff_eq_none.mp hj
      rw [poolMap_cons_err (fun x => _single_ssh_exec env x command) j insts s _ _
        (single_ssh_exec_err env j command s hnone)]
      constructor
      · intro h0
        simp at h0
      · intro hall
        exact absurd (hall j (List.mem_cons_self j insts)) hj

/-! ## Invariant preservation -/

theorem connect_sessionInvariant (inst : Ec2Instance) (s : NetState)
    (h : sessionInvariant s) :
    sessionInvariant ((_single_ssh_connect inst s).2) := by
  simp only [single_ssh_connect_eq, sessionInvariant, sessionKeys]
  exact nodup_keys_dictSet _ _ _ h

theorem exec_sessionInvariant (env : Env) (inst : Ec2Instance)
    (command : String) (s : NetState) (h : sessionInvariant s) :
    sessionInvariant ((_single_ssh_exec env inst command s).2) := by
  simp only [sessionInvariant, sessionKeys, exec_connections_eq]
  exact h

theorem close_sessionInvariant (inst : Ec2Instance) (s : NetState)
    (h : sessionInvariant s) :
    sessionInvariant ((_single_ssh_close inst s).2) := by
  simp only [sessionInvariant, sessionKeys, close_connections_eq]
  exact h

theorem log_sessionInvariant (s : NetState) (m : String)
    (h : sessionInvariant s) : sessionInvariant (_log s m) := h

theorem finishFleet_sessionInvariant (r : Except Err Unit × NetState)
    (m : String) (h : sessionInvariant r.2) :
    sessionInvariant ((finishFleet r m).2) := by
  obtain ⟨r1, s1⟩ := r
  cases r1 with
  | ok u => exact h
  | error e => exact h

/-! ## Worker-pool scheduling lemmas -/

theorem PoolStep.workers_length_eq {τ : Type} {a b : PoolState τ}
    (h : PoolStep a b) : b.workers.length = a.workers.length := by
  cases h <;> simp

theorem reach_workers_length {τ : Type} {a b : PoolState τ}
    (h : Relation.ReflTransGen PoolStep a b) :
    b.workers.length = a.workers.length := by
  induction h with
  | refl => rfl
  | tail _ hstep ih => exact (PoolStep.workers_length_eq hstep).trans ih

theorem runningCount_le_workers {τ : Type} (st : PoolState τ) :
    runningCount st ≤ st.workers.length :=
  List.length_filter_le _ _

theorem finishFleet_fst (r : Except Err Unit × NetState) (m : String) :
    (finishFleet r m).1 = r.1 := by
  obtain ⟨r1, s1⟩ := r
  cases r1 with
  | ok u => cases u; rfl
  | error e => rfl

theorem finishFleet_log_mono (r : Except Err Unit × NetState) (m x : String)
    (h : x ∈ r.2.log) : x ∈ ((finishFleet r m).2).log := by
  obtain ⟨r1, s1⟩ := r
  cases r1 with
  | ok u => exact List.mem_append_left _ h
  | error e => exact h

/-! ## Claims -/

/-- Claim C1, counterexample: with one running node whose per-node
invocation raises (a `KeyError`: `ssh_exec` without a prior
`ssh_connect`), the dispatching method does not return normally —
`pool.map` re-raises the exception to the caller — and the error text
never reaches the log (the log ends at the per-node command header). -/
theorem dispatch_reraises_counterexample :
    (ssh_exec env0 net0 ec2one "ls" state0).1
        = Except.error (Err.keyError "i-0")
      ∧ (ssh_exec env0 net0 ec2one "ls" state0).2.log
        = ["Executing command on all nodes: ls",
           "[instance i-0] Executing command: ls"] :=
  ⟨rfl, rfl⟩

/-- Claim C1, amended: if a per-node invocation of a fleet operation
raises, the sibling invocations still run (every target's command header
reaches the log), but the failure IS re-raised to the caller: the
dispatching method returns normally iff no invocation raised — for
`ssh_exec`, iff every target holds a session. -/
theorem dispatch_failure_semantics (env : Env) (net : ChainspaceNetwork)
    (ec2 : List Filter → List Ec2Instance) (command : String) (s : NetState) :
    (∀ i ∈ _get_running_instances net ec2,
       instMsg i ("Executing command: " ++ command)
         ∈ ((ssh_exec env net ec2 command s).2).log)
    ∧ ((ssh_exec env net ec2 command s).1 = Except.ok ()
        ↔ ∀ i ∈ _get_running_instances net ec2,
            (dictLookup s.ssh_connections i.id).isSome) := by
  constructor
  · intro i hi
    simp only [ssh_exec]
    exact finishFleet_log_mono _ _ _
      (poolMap_exec_header_mem env command (_get_running_instances net ec2)
        (_log s ("Executing command on all nodes: " ++ command)) i hi)
  · simp only [ssh_exec]
    rw [finishFleet_fst]
    exact poolMap_exec_ok_iff env command (_get_running_instances net ec2)
      (_log s ("Executing command on all nodes: " ++ command))

theorem dispatch_failure_semantics_witness :
    instMsg inst0 ("Executing command: " ++ "ls")
      ∈ ((ssh_exec env0 net0 ec2one "ls" state0).2).log
    ∧ (ssh_exec env0 net0 ec2one "ls" state0).1 ≠ Except.ok () := by
  refine ⟨(dispatch_failure_semantics env0 net0 ec2one "ls" state0).1 inst0
    (by decide), ?_⟩
  intro h0
  have hs := ((dispatch_failure_semantics env0 net0 ec2one "ls" state0).2).mp
    h0 inst0 (by decide)
  exact absurd hs (by decide)

/-- Claim C2: with every target instance holding a session, `ssh_exec`
invokes the per-node operation exactly once per target, in list order —
the final log is the initial log plus the fleet header, exactly one
`execBlock` per instance, and the fleet footer — and the rest of the
state is unchanged, the method returning only once every invocation has
contributed its block. -/
theorem ssh_exec_runs_once_per_node (env : Env) (net : ChainspaceNetwork)
    (ec2 : List Filter → List Ec2Instance) (command : String) (s : NetState)
    (h : ∀ i ∈ _get_running_instances net ec2,
        (dictLookup s.ssh_connections i.id).isSome) :
    ssh_exec env net ec2 command s
      = (Except.ok (),
         { s with log := s.log
             ++ ("Executing command on all nodes: " ++ command)
               :: (((_get_running_instances net ec2).map
                     fun i => execBlock env i command).flatten
                   ++ ["Executed command on all nodes: " ++ command]) }) :=
  ssh_exec_ok_eq env net ec2 command s h

theorem ssh_exec_runs_once_per_node_witness :
    (∀ i ∈ _get_running_instances net0 ec2one,
        (dictLookup state1.ssh_connections i.id).isSome)
    ∧ ssh_exec env0 net0 ec2one "ls" state1
        = (Except.ok (),
           { state1 with log := state1.log
               ++ ("Executing command on all nodes: " ++ "ls")
                 :: (((_get_running_instances net0 ec2one).map
                       fun i => execBlock env0 i "ls").flatten
                     ++ ["Executed command on all nodes: " ++ "ls"]) }) :=
  ⟨by decide, ssh_exec_runs_once_per_node env0 net0 ec2one "ls" state1 (by decide)⟩

/-- Claim C5: executing a remote command against a node with no tracked
session fails fast with the key-lookup ("no session") error on the
session dict — it neither blocks nor does anything beyond logging the
attempt. -/
theorem exec_without_session_fails (env : Env) (inst : Ec2Instance)
    (command : String) (s : NetState)
    (h : dictLookup s.ssh_connections inst.id = none) :
    _single_ssh_exec env inst command s
      = (Except.error (Err.keyError inst.id),
         { s with log := s.log
             ++ [instMsg inst ("Executing command: " ++ command)] }) :=
  single_ssh_exec_err env inst command s h

theorem exec_without_session_fails_witness :
    dictLookup state0.ssh_connections inst0.id = none
    ∧ _single_ssh_exec env0 inst0 "ls" state0
        = (Except.error (Err.keyError inst0.id),
           { state0 with log := state0.log
               ++ [instMsg inst0 ("Executing command: " ++ "ls")] }) :=
  ⟨rfl, exec_without_session_fails env0 inst0 "ls" state0 rfl⟩

/-- Claim C7, counterexample: connect then close on one node — the
session dict still contains the node's entry after the close
(`_single_ssh_close` closes the client but never deletes
`self.ssh_connections[instance]`). -/
theorem close_removes_entry_counterexample :
    dictLookup ((_single_ssh_close inst0
        ((_single_ssh_connect inst0 state0).2)).2).ssh_connections "i-0"
      = some 0
    ∧ dictLookup ((_single_ssh_close inst0
        ((_single_ssh_connect inst0 state0).2)).2).ssh_connections "i-0"
      ≠ none :=
  ⟨rfl, by decide⟩

/-- Claim C7, amended: a node's entry is written by connect and read by
the subsequent operations on that node; close closes the stored client
but leaves the node's entry in the mapping unchanged (the entry is not
removed). -/
theorem close_leaves_entry (inst : Ec2Instance) (s : NetState) (c : Nat)
    (h : dictLookup s.ssh_connections inst.id = some c) :
    dictLookup ((_single_ssh_connect inst s).2).ssh_connections inst.id
        = some s.nextClient
    ∧ (_single_ssh_close inst s).1 = Except.ok ()
    ∧ ((_single_ssh_close inst s).2).closed = s.closed ++ [c]
    ∧ ((_single_ssh_close inst s).2).ssh_connections = s.ssh_connections := by
  refine ⟨?_, ?_, ?_, close_connections_eq inst s⟩
  · rw [single_ssh_connect_eq]
    exact dictLookup_dictSet_self ..
  · rw [single_ssh_close_ok inst s c h]
  · rw [single_ssh_close_ok inst s c h]

theorem close_leaves_entry_witness :
    dictLookup state1.ssh_connections inst0.id = some 0
    ∧ dictLookup ((_single_ssh_connect inst0 state1).2).ssh_connections
        inst0.id = some state1.nextClient
    ∧ ((_single_ssh_close inst0 state1).2).ssh_connections
        = state1.ssh_connections :=
  ⟨rfl, (close_leaves_entry inst0 state1 0 rfl).1,
   (close_leaves_entry inst0 state1 0 rfl).2.2.2⟩

/-- Claim C10: connect updates the session dict only at the connecting
node's key, storing the freshly created client there (overwriting any
previous entry); every other node's entry is untouched, and no client is
closed in the process — in particular a previously stored client for the
same node is dropped without being closed. -/
theorem connect_frame_effect (inst : Ec2Instance) (s : NetState) :
    dictLookup ((_single_ssh_connect inst s).2).ssh_connections inst.id
        = some s.nextClient
    ∧ (∀ k : String, k ≠ inst.id →
        dictLookup ((_single_ssh_connect inst s).2).ssh_connections k
          = dictLookup s.ssh_connections k)
    ∧ ((_single_ssh_connect inst s).2).closed = s.closed
    ∧ ((_single_ssh_connect inst s).2).nextClient = s.nextClient + 1 := by
  refine ⟨?_, ?_, ?_, ?_⟩
  · rw [single_ssh_connect_eq]
    exact dictLookup_dictSet_self ..
  · intro k hk
    rw [single_ssh_connect_eq]
    exact dictLookup_dictSet_other s.ssh_connections inst.id k s.nextClient hk
  · rw [single_ssh_connect_eq]
  · rw [single_ssh_connect_eq]

theorem connect_frame_effect_witness :
    dictLookup ((_single_ssh_connect inst0 state1).2).ssh_connections "i-0"
        = some 1
    ∧ ("i-9" ≠ inst0.id
        ∧ dictLookup ((_single_ssh_connect inst0 state1).2).ssh_connections
            "i-9" = dictLookup state1.ssh_connections "i-9")
    ∧ ((_single_ssh_connect inst0 state1).2).closed = state1.closed :=
  ⟨(connect_frame_effect inst0 state1).1,
   ⟨by decide, (connect_frame_effect inst0 state1).2.1 "i-9" (by decide)⟩,
   (connect_frame_effect inst0 state1).2.2.1⟩

/-- Claim C3: during any fleet fan-out at most `concurrency_limit`
per-node invocations run concurrently — in every pool configuration
reachable from a pool of `ChainspaceNetwork.threads` workers the number
of busy workers is bounded by the pool size, which equals 100; a pending
invocation can only start on an idle worker. -/
theorem pool_concurrency_bound (τ : Type) (tasks : List τ) (st : PoolState τ)
    (h : Relation.ReflTransGen PoolStep
        (poolInit tasks ChainspaceNetwork.threads) st) :
    runningCount st ≤ ChainspaceNetwork.threads
      ∧ ChainspaceNetwork.threads = 100 := by
  refine ⟨?_, rfl⟩
  have hlen := reach_workers_length h
  have hinit : (poolInit tasks ChainspaceNetwork.threads).workers.length
      = ChainspaceNetwork.threads := by
    simp [poolInit]
  calc runningCount st ≤ st.workers.length := runningCount_le_workers st
    _ = ChainspaceNetwork.threads := by rw [hlen, hinit]

theorem pool_concurrency_bound_witness :
    runningCount (poolInit ([] : List Nat) ChainspaceNetwork.threads)
        ≤ ChainspaceNetwork.threads
      ∧ ChainspaceNetwork.threads = 100 :=
  pool_concurrency_bound Nat [] _ Relation.ReflTransGen.refl

/-- Claim C4: when the inventory query returns no nodes, every fleet
fan-out returns immediately without a single per-node invocation: only
the fleet header and footer are logged and the state is otherwise
unchanged. -/
theorem dispatch_empty_no_invocations (env : Env) (net : ChainspaceNetwork)
    (command : String) (s : NetState) (ec2 : List Filter → List Ec2Instance)
    (h : _get_running_instances net ec2 = []) :
    ssh_exec env net ec2 command s
      = (Except.ok (), { s with log := s.log
          ++ ["Executing command on all nodes: " ++ command,
              "Executed command on all nodes: " ++ command] })
    ∧ ssh_connect net ec2 s
      = (Except.ok (), { s with log := s.log
          ++ ["Initiating SSH connection on all nodes...",
              "Initiated SSH connection on all nodes."] })
    ∧ ssh_close net ec2 s
      = (Except.ok (), { s with log := s.log
          ++ ["Closing SSH connection on all nodes...",
              "Closed SSH connection on all nodes..."] })
    ∧ install_deps env net ec2 s
      = (Except.ok (), { s with log := s.log
          ++ ["Installing Chainspace dependencies on all nodes...",
              "Installed Chainspace dependencies on all nodes."] })
    ∧ install_core env net ec2 s
      = (Except.ok (), { s with log := s.log
          ++ ["Installing Chainspace core on all nodes...",
              "Installed Chainspace core on all nodes."] }) := by
  refine ⟨?_, ?_, ?_, ?_, ?_⟩ <;>
    simp [ssh_exec, ssh_connect, ssh_close, install_deps, install_core, h,
      poolMap, finishFleet, _log, List.append_assoc]

theorem dispatch_empty_no_invocations_witness :
    _get_running_instances net0 ec2none = []
    ∧ ssh_exec env0 net0 ec2none "ls" state0
        = (Except.ok (), { state0 with log := state0.log
            ++ ["Executing command on all nodes: " ++ "ls",
                "Executed command on all nodes: " ++ "ls"] }) :=
  ⟨rfl, (dispatch_empty_no_invocations env0 net0 "ls" state0 ec2none rfl).1⟩

/-- Claim C6: the at-most-one-session-per-node invariant (the session
dict's keys are pairwise distinct) is preserved by every session
operation — single connect, exec and close, and their fleet fan-outs. -/
theorem session_invariant_preserved (env : Env) (net : ChainspaceNetwork)
    (ec2 : List Filter → List Ec2Instance) (command : String)
    (inst : Ec2Instance) (s : NetState) (h : sessionInvariant s) :
    sessionInvariant ((_single_ssh_connect inst s).2)
    ∧ sessionInvariant ((_single_ssh_exec env inst command s).2)
    ∧ sessionInvariant ((_single_ssh_close inst s).2)
    ∧ sessionInvariant ((ssh_connect net ec2 s).2)
    ∧ sessionInvariant ((ssh_exec env net ec2 command s).2)
    ∧ sessionInvariant ((ssh_close net ec2 s).2) := by
  refine ⟨connect_sessionInvariant inst s h,
          exec_sessionInvariant env inst command s h,
          close_sessionInvariant inst s h, ?_, ?_, ?_⟩
  · simp only [ssh_connect]
    exact finishFleet_sessionInvariant _ _
      (poolMap_preserve _ sessionInvariant
        (fun x st hx => connect_sessionInvariant x st hx) _ _ h)
  · simp only [ssh_exec]
    exact finishFleet_sessionInvariant _ _
      (poolMap_preserve _ sessionInvariant
        (fun x st hx => exec_sessionInvariant env x command st hx) _ _ h)
  · simp only [ssh_close]
    exact finishFleet_sessionInvariant _ _
      (poolMap_preserve _ sessionInvariant
        (fun x st hx => close_sessionInvariant x st hx) _ _ h)

theorem session_invariant_preserved_witness :
    sessionInvariant state0
    ∧ sessionInvariant ((_single_ssh_connect inst0 state0).2) := by
  have h0 : sessionInvariant state0 := List.nodup_nil
  exact ⟨h0,
    (session_invariant_preserved env0 net0 ec2one "ls" inst0 state0 h0).1⟩

/-- Claim C8: every inventory selection is scoped by the tag pair
`type = chainspace` and `network_id = <this network's id>`: an instance
matches the running (resp. stopped) query iff it carries both tags and
is in the corresponding state, and matches the unfiltered query iff it
carries both tags; `stop` acts on the running query, `start` on the
stopped query, `terminate` on the unfiltered query, and the exec,
install and connect fan-outs depend on the inventory only through the
running query. -/
theorem inventory_query_scoping (env : Env) (net : ChainspaceNetwork)
    (ec2 ec2' : List Filter → List Ec2Instance) (command : String)
    (s : NetState) (inst : Ec2Instance)
    (h : ec2 (_get_running_instances_filters net)
        = ec2' (_get_running_instances_filters net)) :
    (matchesFilters inst (_get_running_instances_filters net) = true
      ↔ hasTag inst "type" "chainspace"
          ∧ hasTag inst "network_id" net.network_id
          ∧ inst.state = "running")
    ∧ (matchesFilters inst (_get_stopped_instances_filters net) = true
      ↔ hasTag inst "type" "chainspace"
          ∧ hasTag inst "network_id" net.network_id
          ∧ inst.state = "stopped")
    ∧ (matchesFilters inst (_get_all_instances_filters net) = true
      ↔ hasTag inst "type" "chainspace"
          ∧ hasTag inst "network_id" net.network_id)
    ∧ (stop net ec2 s).2 = ec2 (_get_running_instances_filters net)
    ∧ (start net ec2 s).2 = ec2 (_get_stopped_instances_filters net)
    ∧ (terminate net ec2 s).2 = ec2 (_get_all_instances_filters net)
    ∧ ssh_exec env net ec2 command s = ssh_exec env net ec2' command s
    ∧ ssh_connect net ec2 s = ssh_connect net ec2' s
    ∧ ssh_close net ec2 s = ssh_close net ec2' s
    ∧ install_deps env net ec2 s = install_deps env net ec2' s
    ∧ install_core env net ec2 s = install_core env net ec2' s := by
  refine ⟨?_, ?_, ?_, rfl, rfl, rfl, ?_, ?_, ?_, ?_, ?_⟩
  · simp [matchesFilters, matchesFilter, _get_running_instances_filters,
      hasTag, List.any_eq_true, and_assoc]
  · simp [matchesFilters, matchesFilter, _get_stopped_instances_filters,
      hasTag, List.any_eq_true, and_assoc]
  · simp [matchesFilters, matchesFilter, _get_all_instances_filters,
      hasTag, List.any_eq_true, and_assoc]
  · simp only [ssh_exec, _get_running_instances, h]
  · simp only [ssh_connect, _get_running_instances, h]
  · simp only [ssh_close, _get_running_instances, h]
  · simp only [install_deps, _get_running_instances, h]
  · simp only [install_core, _get_running_instances, h]

theorem inventory_query_scoping_witness :
    (matchesFilters inst0 (_get_running_instances_filters net0) = true
      ↔ hasTag inst0 "type" "chainspace"
          ∧ hasTag inst0 "network_id" net0.network_id
          ∧ inst0.state = "running")
    ∧ (terminate net0 ec2one state0).2
        = ec2one (_get_all_instances_filters net0) :=
  ⟨(inventory_query_scoping env0 net0 ec2one ec2one "ls" state0 inst0 rfl).1,
   (inventory_query_scoping env0 net0 ec2one ec2one "ls" state0 inst0
     rfl).2.2.2.2.2.1⟩

/-- Claim C9: `launch` requests exactly `count` instances
(`MinCount = MaxCount = count`) and tags them with exactly the tag pair
the selection queries filter on, so a launched instance matches this
network's unfiltered query, and its running/stopped queries exactly when
it is in the corresponding state. -/
theorem launch_selection_roundtrip (net : ChainspaceNetwork) (count : Nat)
    (key_name : String) (s s' : NetState) (req : LaunchRequest)
    (h : launch net count key_name s = Except.ok (s', req)) :
    req.minCount = count ∧ req.maxCount = count
    ∧ Tag.mk "type" "chainspace" ∈ req.tags
    ∧ Tag.mk "network_id" net.network_id ∈ req.tags
    ∧ ∀ inst : Ec2Instance, inst.tags = req.tags →
        (matchesFilters inst (_get_all_instances_filters net) = true
          ∧ (matchesFilters inst (_get_running_instances_filters net) = true
              ↔ inst.state = "running")
          ∧ (matchesFilters inst (_get_stopped_instances_filters net) = true
              ↔ inst.state = "stopped")) := by
  simp only [launch, _log] at h
  cases hm : dictLookup _jessie_mapping net.aws_region with
  | none => rw [hm] at h; cases h
  | some ami =>
    rw [hm] at h
    simp only [Except.ok.injEq, Prod.mk.injEq] at h
    obtain ⟨hs, hreq⟩ := h
    subst hreq
    refine ⟨rfl, rfl, by simp, by simp, ?_⟩
    intro inst htags
    refine ⟨?_, ?_, ?_⟩ <;>
      simp [matchesFilters, matchesFilter, _get_all_instances_filters,
        _get_running_instances_filters, _get_stopped_instances_filters,
        htags, List.any_eq_true]

theorem launch_selection_roundtrip_witness :
    launch net0 3 "mykey" state0 = Except.ok (state0Launched, req0)
    ∧ req0.minCount = 3
    ∧ matchesFilters inst0 (_get_all_instances_filters net0) = true :=
  ⟨rfl,
   (launch_selection_roundtrip net0 3 "mykey" state0 state0Launched req0
     rfl).1,
   ((launch_selection_roundtrip net0 3 "mykey" state0 state0Launched req0
     rfl).2.2.2.2 inst0 rfl).1⟩

end Chainspace
